import Mathlib

/-!
Verification of the openshift-sdn egress-IP subsystem and CNI broker.

Shallow embedding of the Go sources:
  pkg/network/node (egress IP watcher, `getMarkForVNID`, `egressIPLabel`,
    `assignEgressIP`, `addEgressIP` / `removeEgressIP`, `Synced`),
  pkg/network/master/egressip.go (debounced CIDR reallocation, liveness poll),
  pkg/cniserver (CNI request broker).

Machine integers (uint32) are modelled as `Nat`; the bitwise operations
`&&&`, `|||`, `^^^` on values below `2 ^ 32` never overflow, so no explicit
reduction modulo `2 ^ 32` is required for the mark computation.
-/

namespace SDN

/-! ## Packet mark computation (node watcher)

Go source:
```
func getMarkForVNID(vnid, masqueradeBit uint32) string {
    if vnid == 0 {
        vnid = 0xff000000
    }
    if (vnid & masqueradeBit) != 0 {
        vnid = (vnid | 0x01000000) ^ masqueradeBit
    }
    return fmt.Sprintf("0x%08x", vnid)
}
```
-/

/-- Numeric part of `getMarkForVNID`: the two sanitizations applied to the
VNID before rendering. -/
def getMarkForVNIDNum (vnid masqueradeBit : ℕ) : ℕ :=
  let v := if vnid = 0 then 0xff000000 else vnid
  if v &&& masqueradeBit ≠ 0 then (v ||| 0x01000000) ^^^ masqueradeBit else v

/-- Lowercase hexadecimal digit character, as produced by the Go verb `%x`. -/
def hexDigit (n : ℕ) : Char :=
  Nat.digitChar (n % 16)

/-- Rendering of a value below `2 ^ 32` with the Go format verb `"%08x"`:
eight zero-padded lowercase hexadecimal digits. -/
def hex8 (n : ℕ) : String :=
  String.mk ((List.range 8).map fun i => hexDigit (n / 16 ^ (7 - i)))

/-- Embedding of the Go function `getMarkForVNID`. -/
def getMarkForVNID (vnid masqueradeBit : ℕ) : String :=
  "0x" ++ hex8 (getMarkForVNIDNum vnid masqueradeBit)

/-- Inverse of the mark transformation on the 24-bit VNID range, used to
prove injectivity there. -/
def markInvFun (k w : ℕ) : ℕ :=
  if w < 2 ^ 24 then w
  else if w < 2 ^ 25 then (w ^^^ 2 ^ 24) ^^^ 2 ^ k
  else 0

lemma testBit_of_and_two_pow_ne {v k : ℕ} (h : v &&& 2 ^ k ≠ 0) :
    v.testBit k = true := by
  rw [Nat.and_two_pow] at h
  rcases hb : v.testBit k with _ | _
  · rw [hb] at h; simp at h
  · rfl

lemma lor_two_pow_xor_cancel {v : ℕ} (hv : v < 2 ^ 24) :
    (v ||| 2 ^ 24) ^^^ 2 ^ 24 = v := by
  apply Nat.eq_of_testBit_eq
  intro i
  rcases eq_or_ne i 24 with rfl | hne
  · simp [Nat.testBit_xor, Nat.testBit_or, Nat.testBit_two_pow_self,
      Nat.testBit_lt_two_pow hv]
  · simp [Nat.testBit_xor, Nat.testBit_or, Nat.testBit_two_pow_of_ne (Ne.symm hne)]

lemma markNum_and_two_pow_eq_zero (v k : ℕ) :
    getMarkForVNIDNum v (2 ^ k) &&& 2 ^ k = 0 := by
  unfold getMarkForVNIDNum
  set w := if v = 0 then 0xff000000 else v with hw
  by_cases hb : w &&& 2 ^ k ≠ 0
  · rw [if_pos hb, Nat.and_two_pow]
    have htb : ((w ||| 0x01000000) ^^^ 2 ^ k).testBit k = false := by
      have : (0x01000000 : ℕ) = 2 ^ 24 := by norm_num
      rw [this, Nat.testBit_xor, Nat.testBit_or, Nat.testBit_two_pow_self,
        testBit_of_and_two_pow_ne hb]
      simp
    rw [htb]
    simp
  · rw [if_neg hb]
    simpa using hb

lemma markNum_zero_inv : ∀ k, k < 32 → markInvFun k (getMarkForVNIDNum 0 (2 ^ k)) = 0 := by
  decide

lemma markInvFun_markNum {k v : ℕ} (hk : k < 32) (hv : v < 2 ^ 24) :
    markInvFun k (getMarkForVNIDNum v (2 ^ k)) = v := by
  rcases eq_or_ne v 0 with rfl | hv0
  · exact markNum_zero_inv k hk
  unfold getMarkForVNIDNum
  simp only [if_neg hv0]
  by_cases hb : v &&& 2 ^ k ≠ 0
  · rw [if_pos hb]
    have htb : v.testBit k = true := testBit_of_and_two_pow_ne hb
    have hkv : 2 ^ k ≤ v := Nat.testBit_implies_ge htb
    have hk24 : k < 24 := by
      by_contra hge
      have : 2 ^ 24 ≤ 2 ^ k := Nat.pow_le_pow_right (by norm_num) (by omega)
      omega
    have h16 : (0x01000000 : ℕ) = 2 ^ 24 := by norm_num
    rw [h16]
    have hlt25 : (v ||| 2 ^ 24) ^^^ 2 ^ k < 2 ^ 25 := by
      apply Nat.xor_lt_two_pow
      · exact Nat.or_lt_two_pow (by omega)
          (Nat.pow_lt_pow_right (by norm_num) (by omega))
      · exact Nat.pow_lt_pow_right (by norm_num) (by omega)
    have hge24 : ¬ ((v ||| 2 ^ 24) ^^^ 2 ^ k < 2 ^ 24) := by
      have h24 : ((v ||| 2 ^ 24) ^^^ 2 ^ k).testBit 24 = true := by
        rw [Nat.testBit_xor, Nat.testBit_or, Nat.testBit_two_pow_self,
          Nat.testBit_two_pow_of_ne (show k ≠ 24 by omega)]
        simp
      have := Nat.testBit_implies_ge h24
      omega
    unfold markInvFun
    rw [if_neg hge24, if_pos hlt25]
    calc (((v ||| 2 ^ 24) ^^^ 2 ^ k) ^^^ 2 ^ 24) ^^^ 2 ^ k
        = (((v ||| 2 ^ 24) ^^^ 2 ^ 24) ^^^ 2 ^ k) ^^^ 2 ^ k := by
          rw [Nat.xor_assoc (v ||| 2 ^ 24) (2 ^ k) (2 ^ 24),
            Nat.xor_comm (2 ^ k) (2 ^ 24),
            ← Nat.xor_assoc (v ||| 2 ^ 24) (2 ^ 24) (2 ^ k)]
      _ = (v ||| 2 ^ 24) ^^^ 2 ^ 24 := Nat.xor_cancel_right _ _
      _ = v := lor_two_pow_xor_cancel hv
  · rw [if_neg hb]
    unfold markInvFun
    rw [if_pos hv]

lemma markNum_injOn_24bit {k v₁ v₂ : ℕ} (hk : k < 32) (h1 : v₁ < 2 ^ 24)
    (h2 : v₂ < 2 ^ 24)
    (he : getMarkForVNIDNum v₁ (2 ^ k) = getMarkForVNIDNum v₂ (2 ^ k)) :
    v₁ = v₂ := by
  have := markInvFun_markNum hk h1
  rw [he, markInvFun_markNum hk h2] at this
  omega

lemma digitChar_injOn : ∀ a, a < 16 → ∀ b, b < 16 →
    Nat.digitChar a = Nat.digitChar b → a = b := by
  decide

lemma eq_of_hexDigits_eq :
    ∀ m n₁ n₂, n₁ < 16 ^ m → n₂ < 16 ^ m →
      (∀ j, j < m → n₁ / 16 ^ j % 16 = n₂ / 16 ^ j % 16) → n₁ = n₂ := by
  intro m
  induction m with
  | zero =>
    intro n₁ n₂ h1 h2 _
    simp only [pow_zero] at h1 h2
    omega
  | succ m ih =>
    intro n₁ n₂ h1 h2 hd
    have h0 : n₁ % 16 = n₂ % 16 := by
      have := hd 0 (Nat.succ_pos m)
      simpa using this
    have hq : n₁ / 16 = n₂ / 16 := by
      apply ih
      · have : 16 ^ (m + 1) = 16 ^ m * 16 := pow_succ 16 m
        exact Nat.div_lt_of_lt_mul (by omega)
      · have : 16 ^ (m + 1) = 16 ^ m * 16 := pow_succ 16 m
        exact Nat.div_lt_of_lt_mul (by omega)
      · intro j hj
        have hdd := hd (j + 1) (by omega)
        rw [Nat.div_div_eq_div_mul, Nat.div_div_eq_div_mul]
        have : 16 * 16 ^ j = 16 ^ (j + 1) := by
          rw [pow_succ]; ring
        rw [this]
        exact hdd
    omega

lemma hex8_injOn {n₁ n₂ : ℕ} (h1 : n₁ < 2 ^ 32) (h2 : n₂ < 2 ^ 32)
    (he : hex8 n₁ = hex8 n₂) : n₁ = n₂ := by
  have hdat : ((List.range 8).map fun i => hexDigit (n₁ / 16 ^ (7 - i))) =
      ((List.range 8).map fun i => hexDigit (n₂ / 16 ^ (7 - i))) := by
    have := congrArg String.data he
    simpa [hex8] using this
  have hdig : ∀ j, j < 8 → n₁ / 16 ^ j % 16 = n₂ / 16 ^ j % 16 := by
    intro j hj
    have hi : 7 - j < 8 := by omega
    have h7 : 7 - (7 - j) = j := by omega
    have := congrArg (fun l => l[7 - j]?) hdat
    simp only [List.getElem?_map, List.getElem?_range hi] at this
    have hc : hexDigit (n₁ / 16 ^ j) = hexDigit (n₂ / 16 ^ j) := by
      simpa [h7] using this
    unfold hexDigit at hc
    exact digitChar_injOn _ (Nat.mod_lt _ (by norm_num)) _
      (Nat.mod_lt _ (by norm_num)) hc
  exact eq_of_hexDigits_eq 8 n₁ n₂ (by norm_num at h1 ⊢; omega)
    (by norm_num at h2 ⊢; omega) hdig

lemma markNum_lt_two_pow_32 {v m : ℕ} (hv : v < 2 ^ 32) (hm : m < 2 ^ 32) :
    getMarkForVNIDNum v m < 2 ^ 32 := by
  unfold getMarkForVNIDNum
  set w := if v = 0 then 0xff000000 else v with hw
  have hwlt : w < 2 ^ 32 := by
    rw [hw]; split
    · norm_num
    · exact hv
  by_cases hb : w &&& m ≠ 0
  · rw [if_pos hb]
    exact Nat.xor_lt_two_pow (Nat.or_lt_two_pow hwlt (by norm_num)) hm
  · rw [if_neg hb]
    exact hwlt

lemma getMarkForVNID_eq_iff {v₁ v₂ m : ℕ} (h1 : v₁ < 2 ^ 32) (h2 : v₂ < 2 ^ 32)
    (hm : m < 2 ^ 32) :
    getMarkForVNID v₁ m = getMarkForVNID v₂ m ↔
      getMarkForVNIDNum v₁ m = getMarkForVNIDNum v₂ m := by
  constructor
  · intro he
    unfold getMarkForVNID at he
    have hdat := congrArg String.data he
    simp only [String.data_append] at hdat
    have := List.append_cancel_left hdat
    exact hex8_injOn (markNum_lt_two_pow_32 h1 hm) (markNum_lt_two_pow_32 h2 hm)
      (by simpa [String.ext_iff] using this)
  · intro he
    unfold getMarkForVNID
    rw [he]

/-- Mark computation as described by the specification text: `mark = vnid`;
if `vnid == 0` substitute `0xff000000`; if the value intersects the
masquerade bit it becomes `(value | 0x01000000) XOR masqueradeBit`; the
result is rendered as `"0x%08x"`. -/
def specPacketMark (vnid masqueradeBit : ℕ) : String :=
  let value := if vnid = 0 then 0xff000000 else vnid
  let value := if value &&& masqueradeBit ≠ 0
    then (value ||| 0x01000000) ^^^ masqueradeBit else value
  "0x" ++ hex8 value

/-- C1: the claim that `getMarkForVNID` is injective over the full 32-bit
VNID range is false: with the single-bit mask `2 ^ 31`, the distinct VNIDs
`0x80000000` and `0x01000000` produce the same mark (both render as
`"0x01000000"`), even though the masquerade-bit-avoidance part of the claim
holds at this input. -/
theorem c1_mark_injectivity_counterexample :
    getMarkForVNID 0x80000000 (2 ^ 31) = getMarkForVNID 0x01000000 (2 ^ 31) ∧
    (0x80000000 : ℕ) ≠ 0x01000000 ∧
    (0x80000000 : ℕ) ≤ 2 ^ 32 - 1 ∧ (0x01000000 : ℕ) ≤ 2 ^ 32 - 1 ∧
    getMarkForVNIDNum 0x80000000 (2 ^ 31) &&& 2 ^ 31 = 0 := by
  decide

/-- C1 (amended): `getMarkForVNID` is a pure function of
`(vnid, masqueradeBit)`; for every VNID `v` and single-bit mask `2 ^ k` the
returned mark has the mask bit clear, and the function is injective on the
24-bit VNID range `v < 2 ^ 24` (injectivity over the full 32-bit range is
refuted by `c1_mark_injectivity_counterexample`). -/
theorem c1_mark_mask_clear_and_injective_on_24bit :
    (∀ v k, getMarkForVNIDNum v (2 ^ k) &&& 2 ^ k = 0) ∧
    (∀ k v₁ v₂, k < 32 → v₁ < 2 ^ 24 → v₂ < 2 ^ 24 →
      getMarkForVNID v₁ (2 ^ k) = getMarkForVNID v₂ (2 ^ k) → v₁ = v₂) := by
  constructor
  · exact markNum_and_two_pow_eq_zero
  · intro k v₁ v₂ hk h1 h2 he
    apply markNum_injOn_24bit hk h1 h2
    have hm : (2 : ℕ) ^ k < 2 ^ 32 := Nat.pow_lt_pow_right (by norm_num) hk
    have hb1 : v₁ < 2 ^ 32 := lt_trans h1 (by norm_num)
    have hb2 : v₂ < 2 ^ 32 := lt_trans h2 (by norm_num)
    exact (getMarkForVNID_eq_iff hb1 hb2 hm).mp he

/-- Witness for the amended C1 theorem at VNID 42 and masquerade bit 14. -/
theorem c1_mark_mask_clear_and_injective_on_24bit_witness :
    getMarkForVNIDNum 42 (2 ^ 14) &&& 2 ^ 14 = 0 ∧ (42 : ℕ) = 42 :=
  ⟨c1_mark_mask_clear_and_injective_on_24bit.1 42 14,
    c1_mark_mask_clear_and_injective_on_24bit.2 14 42 42 (by decide) (by decide)
      (by decide) rfl⟩

/-- C2: the packet mark is computed exactly as the specification describes
(`specPacketMark`), and VNID 42 with any non-intersecting masquerade bit
yields the string `"0x0000002a"`. -/
theorem c2_mark_computation_correct :
    (∀ v m, getMarkForVNID v m = specPacketMark v m) ∧
    (∀ m, 42 &&& m = 0 → getMarkForVNID 42 m = "0x0000002a") := by
  constructor
  · intro v m; rfl
  · intro m hm
    unfold getMarkForVNID getMarkForVNIDNum
    simp only [if_neg (show (42 : ℕ) ≠ 0 by decide), hm, ne_eq,
      not_true_eq_false, if_false, if_neg]
    decide

/-- Witness for C2 at the masquerade bit 14 (mask `0x4000`), which does not
intersect VNID 42. -/
theorem c2_mark_computation_correct_witness :
    getMarkForVNID 42 0x4000 = specPacketMark 42 0x4000 ∧
    getMarkForVNID 42 0x4000 = "0x0000002a" :=
  ⟨c2_mark_computation_correct.1 42 0x4000,
    c2_mark_computation_correct.2 0x4000 (by decide)⟩

/-! ## CNI request broker (package cniserver)

The request body is modelled as `Except String CNIRequest`: `.error e`
stands for a body that Go `json.Unmarshal` rejects with message `e`, and
`.ok cr` for a successfully unmarshalled `CNIRequest`.  The JSON object
`env` is modelled as an association list with `List.lookup` as map access.
The `Result` channel of the Go `PodRequest` carries no data relevant to the
claims and is omitted; `requestFunc` is the handler supplied to `Start`.
-/

deriving instance DecidableEq for Except

/-- Embedding of the Go struct `CNIRequest` (JSON body of a broker POST). -/
structure CNIRequest where
  Env : List (String × String)
  Config : String
  HostVeth : String
deriving DecidableEq

/-- Embedding of the Go struct `PodRequest` handed to the handler. -/
structure PodRequest where
  Command : String
  PodNamespace : String
  PodName : String
  SandboxID : String
  Netns : String
  HostVeth : String
  AssignedIP : String
deriving DecidableEq

/-- HTTP response written by the broker: status code, Content-Type header
and body. -/
structure HTTPResponse where
  status : ℕ
  contentType : Option String
  body : String
deriving DecidableEq

/-- Go map assignment `m[k] = v`: the new binding replaces any old one. -/
def mapSet (m : List (String × String)) (k v : String) : List (String × String) :=
  (k, v) :: m.filter (fun p => p.1 ≠ k)

/-- Insertion into a key-sorted list, used to mirror the sorted-key rendering
of a Go map by the `%s` format verb. -/
def insertByKey (p : String × String) :
    List (String × String) → List (String × String)
  | [] => [p]
  | q :: qs => if p.1 < q.1 then p :: q :: qs else q :: insertByKey p qs

/-- Rendering of a `map[string]string` by the Go format verb `%s`:
`map[k1:v1 k2:v2 ...]` with keys in sorted order. -/
def formatGoMap (env : List (String × String)) : String :=
  "map[" ++
    String.intercalate " "
      ((env.foldr insertByKey []).map fun p => p.1 ++ ":" ++ p.2) ++ "]"

/-- Character-level splitting, the semantics of Go `strings.Split` with a
one-character separator (both separators in the source, `;` and `=`, are
single characters). -/
def splitChars (c : Char) : List Char → List (List Char)
  | [] => [[]]
  | x :: xs =>
    let r := splitChars c xs
    if x = c then [] :: r
    else
      match r with
      | [] => [[x]]
      | y :: ys => (x :: y) :: ys

/-- Go `strings.Split(s, sep)` for a one-character separator `sep`. -/
def goSplit (s : String) (c : Char) : List String :=
  (splitChars c s.data).map String.mk

/-- Go `strings.TrimSpace`: remove leading and trailing whitespace. -/
def goTrimSpace (s : String) : String :=
  String.mk
    (((s.data.dropWhile Char.isWhitespace).reverse.dropWhile
      Char.isWhitespace).reverse)

/-- Embedding of one iteration of the `gatherCNIArgs` loop body: split an
entry of `CNI_ARGS` at `=` and record the trimmed key/value pair. -/
def parseCNIArg (acc : List (String × String)) (arg : String) :
    Except String (List (String × String)) :=
  match goSplit arg (Char.ofNat 61) with
  | [k, v] => .ok (mapSet acc (goTrimSpace k) (goTrimSpace v))
  | _ => .error ("invalid CNI_ARG '" ++ arg ++ "'")

/-- Embedding of the Go function `gatherCNIArgs`. -/
def gatherCNIArgs (env : List (String × String)) :
    Except String (List (String × String)) :=
  match env.lookup "CNI_ARGS" with
  | none => .error ("missing CNI_ARGS: '" ++ formatGoMap env ++ "'")
  | some cniArgs => (goSplit cniArgs (Char.ofNat 59)).foldlM parseCNIArg []

/-- Embedding of the Go function `cniRequestToPodRequest`. -/
def cniRequestToPodRequest (body : Except String CNIRequest) :
    Except String PodRequest :=
  match body with
  | .error e => .error ("JSON unmarshal error: " ++ e)
  | .ok cr =>
    match cr.Env.lookup "CNI_COMMAND" with
    | none => .error "unexpected or missing CNI_COMMAND"
    | some cmd =>
      match cr.Env.lookup "CNI_CONTAINERID" with
      | none => .error "missing CNI_CONTAINERID"
      | some sandboxID =>
        match cr.Env.lookup "CNI_NETNS" with
        | none => .error "missing CNI_NETNS"
        | some netns =>
          if cr.HostVeth = "" ∧ cmd = "ADD" then .error "missing HostVeth"
          else
            match gatherCNIArgs cr.Env with
            | .error e => .error e
            | .ok cniArgs =>
              match cniArgs.lookup "K8S_POD_NAMESPACE" with
              | none => .error "missing K8S_POD_NAMESPACE"
              | some podNamespace =>
                match cniArgs.lookup "K8S_POD_NAME" with
                | none => .error "missing K8S_POD_NAME"
                | some podName =>
                  .ok { Command := cmd, PodNamespace := podNamespace,
                        PodName := podName, SandboxID := sandboxID,
                        Netns := netns, HostVeth := cr.HostVeth,
                        AssignedIP := "" }

/-- Response written by Go `http.Error`: the given status, plain-text
content type and the error text followed by a newline. -/
def httpError (status : ℕ) (e : String) : HTTPResponse :=
  { status := status, contentType := some "text/plain; charset=utf-8",
    body := e ++ "\n" }

/-- Embedding of the Go method `CNIServer.handleCNIRequest`. -/
def handleCNIRequest (requestFunc : PodRequest → Except String String)
    (body : Except String CNIRequest) : HTTPResponse :=
  match cniRequestToPodRequest body with
  | .error err => httpError 400 err
  | .ok req =>
    match requestFunc req with
    | .error err => httpError 400 err
    | .ok result =>
      { status := 200, contentType := some "application/json", body := result }

/-- Required-key check from the claim: the body is invalid JSON, or one of
`CNI_COMMAND`, `CNI_CONTAINERID`, `CNI_NETNS`, `CNI_ARGS`,
`K8S_POD_NAMESPACE`, `K8S_POD_NAME` is missing, or `hostVeth` is missing on
an `ADD` command. -/
def missingRequiredKey (body : Except String CNIRequest) : Bool :=
  match body with
  | .error _ => true
  | .ok cr =>
    (cr.Env.lookup "CNI_COMMAND").isNone ||
    (cr.Env.lookup "CNI_CONTAINERID").isNone ||
    (cr.Env.lookup "CNI_NETNS").isNone ||
    (cr.HostVeth == "" && cr.Env.lookup "CNI_COMMAND" == some "ADD") ||
    (cr.Env.lookup "CNI_ARGS").isNone ||
    (match gatherCNIArgs cr.Env with
     | .error _ => false
     | .ok args =>
       (args.lookup "K8S_POD_NAMESPACE").isNone ||
       (args.lookup "K8S_POD_NAME").isNone)

lemma handleCNIRequest_of_parse_error {body : Except String CNIRequest}
    {e : String} (h : cniRequestToPodRequest body = .error e)
    (f : PodRequest → Except String String) :
    handleCNIRequest f body = httpError 400 e := by
  simp [handleCNIRequest, h]

/-- C3: a POST body that is invalid JSON or lacks a required key is rejected
by the parser with an error `e`, and for every handler the response is
HTTP 400 with body exactly the error text (plus newline); since the response
is the same for all handlers, the handler is never invoked, and the broker
keeps no other state. -/
theorem c3_broker_rejects_malformed_requests :
    ∀ body, missingRequiredKey body = true →
      ∃ e, cniRequestToPodRequest body = .error e ∧
        ∀ f, handleCNIRequest f body =
          { status := 400, contentType := some "text/plain; charset=utf-8",
            body := e ++ "\n" } := by
  intro body hmiss
  suffices h : ∃ e, cniRequestToPodRequest body = .error e by
    obtain ⟨e, he⟩ := h
    exact ⟨e, he, fun f => handleCNIRequest_of_parse_error he f⟩
  rcases body with e | cr
  · exact ⟨_, rfl⟩
  rcases h1 : cr.Env.lookup "CNI_COMMAND" with _ | cmd
  · exact ⟨"unexpected or missing CNI_COMMAND", by simp [cniRequestToPodRequest, h1]⟩
  rcases h2 : cr.Env.lookup "CNI_CONTAINERID" with _ | sandboxID
  · exact ⟨"missing CNI_CONTAINERID", by simp [cniRequestToPodRequest, h1, h2]⟩
  rcases h3 : cr.Env.lookup "CNI_NETNS" with _ | netns
  · exact ⟨"missing CNI_NETNS", by simp [cniRequestToPodRequest, h1, h2, h3]⟩
  by_cases h4 : cr.HostVeth = "" ∧ cmd = "ADD"
  · exact ⟨"missing HostVeth", by simp [cniRequestToPodRequest, h1, h2, h3, h4]⟩
  rcases h5 : gatherCNIArgs cr.Env with e5 | args
  · exact ⟨e5, by simp [cniRequestToPodRequest, h1, h2, h3, h4, h5]⟩
  rcases h6 : args.lookup "K8S_POD_NAMESPACE" with _ | ns
  · exact ⟨"missing K8S_POD_NAMESPACE", by simp [cniRequestToPodRequest, h1, h2, h3, h4, h5, h6]⟩
  rcases h7 : args.lookup "K8S_POD_NAME" with _ | nm
  · exact ⟨"missing K8S_POD_NAME", by simp [cniRequestToPodRequest, h1, h2, h3, h4, h5, h6, h7]⟩
  exfalso
  have h8 : cr.Env.lookup "CNI_ARGS" ≠ none := by
    intro h8
    rw [gatherCNIArgs, h8] at h5
    exact Except.noConfusion h5
  rcases h9 : cr.Env.lookup "CNI_ARGS" with _ | rawArgs
  · exact h8 h9
  simp only [missingRequiredKey, h1, h2, h3, h5, h6, h7, h9,
    Option.isNone_some, Bool.or_false, Bool.false_or, Bool.or_eq_true,
    Bool.and_eq_true, beq_iff_eq, Option.some.injEq] at hmiss
  exact h4 hmiss

/-- Witness for C3: the S6 request (a valid ADD request without
`CNI_CONTAINERID`) is rejected with HTTP 400 and the body
`missing CNI_CONTAINERID`, whatever the handler does. -/
theorem c3_broker_rejects_malformed_requests_witness :
    ∃ e, cniRequestToPodRequest (.ok
        { Env := [("CNI_COMMAND", "ADD"), ("CNI_NETNS", "/proc/1/ns/net"),
            ("CNI_ARGS", "K8S_POD_NAMESPACE=default;K8S_POD_NAME=p")],
          Config := "", HostVeth := "veth0" }) = .error e ∧
      ∀ f, handleCNIRequest f (.ok
        { Env := [("CNI_COMMAND", "ADD"), ("CNI_NETNS", "/proc/1/ns/net"),
            ("CNI_ARGS", "K8S_POD_NAMESPACE=default;K8S_POD_NAME=p")],
          Config := "", HostVeth := "veth0" }) =
        { status := 400, contentType := some "text/plain; charset=utf-8",
          body := e ++ "\n" } :=
  c3_broker_rejects_malformed_requests _ (by decide)

/-- C4: a well-formed CNI request is parsed into a `PodRequest` whose
fields equal the corresponding request fields; a handler success yields
HTTP 200 with Content-Type `application/json` and exactly the handler
bytes; a handler error yields HTTP 400 with the error text. -/
theorem c4_broker_happy_path :
    ∀ (cr : CNIRequest) (cmd sid netns : String)
      (args : List (String × String)) (ns nm : String),
      cr.Env.lookup "CNI_COMMAND" = some cmd →
      cr.Env.lookup "CNI_CONTAINERID" = some sid →
      cr.Env.lookup "CNI_NETNS" = some netns →
      ¬ (cr.HostVeth = "" ∧ cmd = "ADD") →
      gatherCNIArgs cr.Env = .ok args →
      args.lookup "K8S_POD_NAMESPACE" = some ns →
      args.lookup "K8S_POD_NAME" = some nm →
      cniRequestToPodRequest (.ok cr) =
        .ok { Command := cmd, PodNamespace := ns, PodName := nm,
              SandboxID := sid, Netns := netns, HostVeth := cr.HostVeth,
              AssignedIP := "" } ∧
      (∀ f resp,
        f { Command := cmd, PodNamespace := ns, PodName := nm,
            SandboxID := sid, Netns := netns, HostVeth := cr.HostVeth,
            AssignedIP := "" } = .ok resp →
        handleCNIRequest f (.ok cr) =
          { status := 200, contentType := some "application/json",
            body := resp }) ∧
      (∀ f err,
        f { Command := cmd, PodNamespace := ns, PodName := nm,
            SandboxID := sid, Netns := netns, HostVeth := cr.HostVeth,
            AssignedIP := "" } = .error err →
        handleCNIRequest f (.ok cr) =
          { status := 400, contentType := some "text/plain; charset=utf-8",
            body := err ++ "\n" }) := by
  intro cr cmd sid netns args ns nm h1 h2 h3 h4 h5 h6 h7
  have hparse : cniRequestToPodRequest (.ok cr) =
      .ok { Command := cmd, PodNamespace := ns, PodName := nm,
            SandboxID := sid, Netns := netns, HostVeth := cr.HostVeth,
            AssignedIP := "" } := by
    simp [cniRequestToPodRequest, h1, h2, h3, h4, h5, h6, h7]
  refine ⟨hparse, ?_, ?_⟩
  · intro f resp hf
    simp [handleCNIRequest, hparse, hf]
  · intro f err hf
    simp [handleCNIRequest, hparse, hf, httpError]

/-- Witness for C4 at the S5 request: command ADD, container `abc`, netns
`/proc/1/ns/net`, pod `default/p`, host veth `veth0`, with a handler that
answers `RESULT` for pod name `p`. -/
theorem c4_broker_happy_path_witness :
    cniRequestToPodRequest (.ok
      { Env := [("CNI_COMMAND", "ADD"), ("CNI_CONTAINERID", "abc"),
          ("CNI_NETNS", "/proc/1/ns/net"),
          ("CNI_ARGS", "K8S_POD_NAMESPACE=default;K8S_POD_NAME=p")],
        Config := "", HostVeth := "veth0" }) =
      .ok { Command := "ADD", PodNamespace := "default", PodName := "p",
            SandboxID := "abc", Netns := "/proc/1/ns/net",
            HostVeth := "veth0", AssignedIP := "" } ∧
    handleCNIRequest
      (fun req => if req.PodName = "p" then .ok "RESULT" else .error "bad")
      (.ok
        { Env := [("CNI_COMMAND", "ADD"), ("CNI_CONTAINERID", "abc"),
            ("CNI_NETNS", "/proc/1/ns/net"),
            ("CNI_ARGS", "K8S_POD_NAMESPACE=default;K8S_POD_NAME=p")],
          Config := "", HostVeth := "veth0" }) =
      { status := 200, contentType := some "application/json",
        body := "RESULT" } := by
  have h := c4_broker_happy_path
    { Env := [("CNI_COMMAND", "ADD"), ("CNI_CONTAINERID", "abc"),
        ("CNI_NETNS", "/proc/1/ns/net"),
        ("CNI_ARGS", "K8S_POD_NAMESPACE=default;K8S_POD_NAME=p")],
      Config := "", HostVeth := "veth0" }
    "ADD" "abc" "/proc/1/ns/net"
    [("K8S_POD_NAME", "p"), ("K8S_POD_NAMESPACE", "default")] "default" "p"
    (by decide) (by decide) (by decide) (by decide) (by decide) (by decide)
    (by decide)
  exact ⟨h.1, h.2.1 _ "RESULT" (by decide)⟩

/-! ## Broker startup (`CNIServer.Start`)

The run directory is modelled by `RunDirState`: the permission and kind of
the path, the modes of the socket and config file when present, and a flag
recording whether any other entries exist in the directory.  `none` models
a path that does not exist.  All system calls are modelled on their success
path; `os.Remove` of a missing file (`IsNotExist`) is tolerated as in the
source.  `net.Listen` followed by `os.Chmod(socketPath, 0600)` is modelled
as creating the socket with final mode `0600`. -/

/-- State of the broker run directory path. -/
structure RunDirState where
  perm : ℕ
  isDir : Bool
  socket : Option ℕ
  configFile : Option ℕ
  others : Bool
deriving DecidableEq

/-- Embedding of the filesystem effect of `CNIServer.Start`: returns the
resulting run-directory state and whether HTTP keep-alives were disabled. -/
def cniServerStart (fs : Option RunDirState) : RunDirState × Bool :=
  let afterClean : Option RunDirState :=
    match fs with
    | none => none
    | some d =>
      if d.isDir ∧ d.perm = 0o700 then
        some { d with socket := none, configFile := none }
      else
        none
  let d : RunDirState :=
    match afterClean with
    | none =>
      { perm := 0o700, isDir := true, socket := none, configFile := none,
        others := false }
    | some d => d
  let d := { d with configFile := some 0o444 }
  let d := { d with socket := some 0o600 }
  (d, true)

/-- C7: broker startup keeps a `0700` directory (clearing only the socket
and config file when the directory already has mode `0700`, recreating it
from scratch otherwise), writes the config file with mode `0444`, creates
the socket with mode `0600` and disables keep-alives; a second start
reaches exactly the same state, with one socket, one config file and one
directory. -/
theorem c7_broker_startup_idempotent :
    ∀ fs : Option RunDirState,
      (cniServerStart fs).2 = true ∧
      (cniServerStart fs).1.perm = 0o700 ∧
      (cniServerStart fs).1.isDir = true ∧
      (cniServerStart fs).1.socket = some 0o600 ∧
      (cniServerStart fs).1.configFile = some 0o444 ∧
      cniServerStart (some (cniServerStart fs).1) = cniServerStart fs ∧
      (∀ d, fs = some d → d.isDir = true → d.perm = 0o700 →
        (cniServerStart fs).1.others = d.others) ∧
      (∀ d, fs = some d → ¬ (d.isDir = true ∧ d.perm = 0o700) →
        (cniServerStart fs).1.others = false) ∧
      (fs = none → (cniServerStart fs).1.others = false) := by
  intro fs
  rcases fs with _ | d
  · refine ⟨rfl, rfl, rfl, rfl, rfl, rfl, ?_, ?_, fun _ => rfl⟩
    · intro d hd; exact absurd hd (by simp)
    · intro d hd; exact absurd hd (by simp)
  by_cases hc : d.isDir = true ∧ d.perm = 0o700
  · have hcp : d.isDir ∧ d.perm = 0o700 := ⟨hc.1, hc.2⟩
    refine ⟨rfl, ?_, ?_, ?_, ?_, ?_, ?_, ?_, ?_⟩
    · simp [cniServerStart, hcp, hc.2]
    · simp [cniServerStart, hcp, hc.1]
    · simp [cniServerStart, hcp]
    · simp [cniServerStart, hcp]
    · simp [cniServerStart, hcp]
    · intro d2 hd2 _ _
      obtain rfl : d = d2 := by injection hd2
      simp [cniServerStart, hcp]
    · intro d2 hd2 hn
      obtain rfl : d = d2 := by injection hd2
      exact absurd hc hn
    · intro h; exact Option.noConfusion h
  · have hcp : ¬ (d.isDir ∧ d.perm = 0o700) := by
      intro h; exact hc ⟨by rw [h.1], h.2⟩
    refine ⟨rfl, ?_, ?_, ?_, ?_, ?_, ?_, ?_, ?_⟩
    · simp [cniServerStart, hcp]
    · simp [cniServerStart, hcp]
    · simp [cniServerStart, hcp]
    · simp [cniServerStart, hcp]
    · simp [cniServerStart, hcp]
    · intro d2 hd2 h1 h2
      obtain rfl : d = d2 := by injection hd2
      exact absurd ⟨h1, h2⟩ hc
    · intro d2 hd2 _
      obtain rfl : d = d2 := by injection hd2
      simp [cniServerStart, hcp]
    · intro h; exact Option.noConfusion h

/-- Witness for C7: starting from a `0755` directory holding a stale socket
and foreign entries, the directory is rebuilt from scratch. -/
theorem c7_broker_startup_idempotent_witness :
    cniServerStart (some
      { perm := 0o755, isDir := true, socket := some 0o600,
        configFile := none, others := true }) =
      ({ perm := 0o700, isDir := true, socket := some 0o600,
         configFile := some 0o444, others := false }, true) ∧
    (cniServerStart (some
      { perm := 0o755, isDir := true, socket := some 0o600,
        configFile := none, others := true })).1.others = false :=
  ⟨by decide,
    (c7_broker_startup_idempotent (some
      { perm := 0o755, isDir := true, socket := some 0o600,
        configFile := none, others := true })).2.2.2.2.2.2.2.1
      { perm := 0o755, isDir := true, socket := some 0o600,
        configFile := none, others := true } rfl (by decide)⟩

/-! ## Master allocator debouncing (egressip.go)

State of `egressIPManager` relevant to `UpdateEgressCIDRs`: the two flags
guarded by the mutex.  `updateEgressCIDRs` embeds the body of
`UpdateEgressCIDRs` (the goroutine start is implicit: the poller is running
exactly while `updatePending` is set).  `maybeDoUpdateEgressCIDRs` embeds
one 1-second `PollInfinite` tick; its Boolean result is `true` exactly when
`ReallocateEgressIPs` ran, the writeback was issued and the poller stops.

Time is discretized into quanta of one second: a trace is the list of
counts of `UpdateEgressCIDRs` notifications received in each successive
quantum after the initial one, each quantum ending with one poller tick. -/

/-- Debounce flags of the master `egressIPManager`. -/
structure EIMState where
  updatePending : Bool
  updatedAgain : Bool
deriving DecidableEq

/-- Embedding of `egressIPManager.UpdateEgressCIDRs`. -/
def updateEgressCIDRs (s : EIMState) : EIMState :=
  if s.updatePending then { s with updatedAgain := true }
  else { s with updatePending := true }

/-- Embedding of one `maybeDoUpdateEgressCIDRs` tick; the Boolean is `true`
exactly when the reallocation and writeback run (and polling stops). -/
def maybeDoUpdateEgressCIDRs (s : EIMState) : EIMState × Bool :=
  if s.updatedAgain then ({ s with updatedAgain := false }, false)
  else ({ s with updatePending := false }, true)

/-- One quantum: `n` notifications arrive, then the poller tick fires. -/
def processQuantum (s : EIMState) (n : ℕ) : EIMState × Bool :=
  maybeDoUpdateEgressCIDRs (updateEgressCIDRs^[n] s)

/-- Index of the quantum in which the first writeback happens, running the
embedded machine over the per-quantum notification counts. -/
def firstWritebackQuantum : EIMState → List ℕ → Option ℕ
  | _, [] => none
  | s, n :: qs =>
    let r := processQuantum s n
    if r.2 then some 0 else (firstWritebackQuantum r.1 qs).map (· + 1)

/-- Index of the first quantum with no notification at all. -/
def firstQuietQuantum : List ℕ → Option ℕ
  | [] => none
  | n :: qs => if n = 0 then some 0 else (firstQuietQuantum qs).map (· + 1)

lemma iterate_updateEgressCIDRs_succ (n : ℕ) :
    updateEgressCIDRs^[n + 1] ⟨true, false⟩ = ⟨true, true⟩ := by
  rw [Function.iterate_succ_apply,
    show updateEgressCIDRs ⟨true, false⟩ = ⟨true, true⟩ from rfl]
  exact Function.iterate_fixed rfl n

lemma firstWritebackQuantum_eq_firstQuiet :
    ∀ qs, firstWritebackQuantum ⟨true, false⟩ qs = firstQuietQuantum qs := by
  intro qs
  induction qs with
  | nil => rfl
  | cons n qs ih =>
    rcases n with _ | m
    · rfl
    · rw [firstWritebackQuantum, firstQuietQuantum]
      have hpq : processQuantum ⟨true, false⟩ (m + 1) = (⟨true, false⟩, false) := by
        rw [processQuantum, iterate_updateEgressCIDRs_succ]
        rfl
      rw [hpq]
      simp [ih]

/-- C5: starting from the idle state, the quantum of the first
`ReallocateEgressIPs` run and writeback is exactly the first quantum that
contains no `UpdateEgressCIDRs` notification: the first notification
schedules the work one quantum later, every further notification while the
work is scheduled defers it another quantum, and at most one quantum with
no pending notification passes before the first writeback. -/
theorem c5_debounce_coalescing :
    (∀ qs, firstWritebackQuantum (updateEgressCIDRs ⟨false, false⟩) qs =
      firstQuietQuantum qs) ∧
    (∀ qs i, firstQuietQuantum qs = some i →
      (∀ j, j < i → ∃ n, qs[j]? = some n ∧ n ≠ 0) ∧ qs[i]? = some 0) := by
  constructor
  · intro qs
    exact firstWritebackQuantum_eq_firstQuiet qs
  · intro qs
    induction qs with
    | nil => intro i h; exact Option.noConfusion h
    | cons n qs ih =>
      intro i h
      rw [firstQuietQuantum] at h
      by_cases hn : n = 0
      · rw [if_pos hn] at h
        obtain rfl : i = 0 := by injection h with h; omega
        exact ⟨fun j hj => absurd hj (by omega), by simp [hn]⟩
      · rw [if_neg hn] at h
        obtain ⟨a, ha, rfl⟩ := Option.map_eq_some'.mp h
        obtain ⟨ihj, ihi⟩ := ih a ha
        refine ⟨?_, by simpa using ihi⟩
        intro j hj
        rcases j with _ | j
        · exact ⟨n, by simp, hn⟩
        · obtain ⟨m, hm, hm0⟩ := ihj j (by omega)
          exact ⟨m, by simpa using hm, hm0⟩

/-- Witness for C5 on the trace with two busy quanta followed by a quiet
one: the writeback fires in quantum 2. -/
theorem c5_debounce_coalescing_witness :
    firstWritebackQuantum (updateEgressCIDRs ⟨false, false⟩) [2, 1, 0] =
      firstQuietQuantum [2, 1, 0] ∧ ([2, 1, 0] : List ℕ)[2]? = some 0 :=
  ⟨c5_debounce_coalescing.1 [2, 1, 0],
    (c5_debounce_coalescing.2 [2, 1, 0] 2 (by decide)).2⟩

/-! ## Master node-liveness check (egressip.go)

`checkNodes` embeds `egressIPManager.check`: the monitored nodes are kept
as a list and iterated in order (the Go map order is irrelevant for the
single-node statements proved below).  `nodeLookup` stands for the node
informer lister, `ping` for one `tracker.Ping` probe.  The result is the
updated node list, the `SetNodeOffline` calls in order, the `needRetry`
flag and whether a lister error aborted the pass.

In `poll`, the statement `retry, err := eim.check(retry)` declares a fresh
`retry` inside the loop body, so the outer `retry` read on the right-hand
side is always `false`: every `check` call runs with `retrying == false`.
The theorems therefore drive `checkNodes` with `retrying := false`. -/

/-- Constant `maxRetries` from the source. -/
def maxRetries : ℕ := 2

/-- Relevant part of a Kubernetes Node object: its status conditions as
(type, status) pairs. -/
structure NodeObj where
  conditions : List (String × String)
deriving DecidableEq

/-- Embedding of `nodeIsReady`: false when any `Ready` condition has status
`False` or `Unknown`. -/
def nodeIsReady (node : NodeObj) : Bool :=
  node.conditions.foldl
    (fun acc cond =>
      if cond.1 = "Ready" ∧ (cond.2 = "False" ∨ cond.2 = "Unknown") then false
      else acc)
    true

/-- Embedding of the master `egressNode` record. -/
structure MasterEgressNode where
  ip : String
  name : String
  offline : Bool
  retries : ℕ
deriving DecidableEq

/-- Embedding of `egressIPManager.check`.  Returns the updated nodes, the
`SetNodeOffline(ip, b)` calls in order, the `needRetry` flag, and whether a
lister error caused an early return. -/
def checkNodes (retrying : Bool) (nodeLookup : String → Option NodeObj)
    (ping : String → Bool) :
    List MasterEgressNode →
      List MasterEgressNode × List (String × Bool) × Bool × Bool
  | [] => ([], [], false, false)
  | node :: rest =>
    if retrying ∧ node.retries = 0 then
      let r := checkNodes retrying nodeLookup ping rest
      (node :: r.1, r.2.1, r.2.2.1, r.2.2.2)
    else
      match nodeLookup node.name with
      | none => (node :: rest, [], false, true)
      | some nn =>
        if nodeIsReady nn = false then
          ({ node with offline := true } :: rest, [(node.ip, true)], false,
            false)
        else
          let online := ping node.ip
          if node.offline ∧ online then
            let r := checkNodes retrying nodeLookup ping rest
            ({ node with offline := false } :: r.1,
              (node.ip, false) :: r.2.1, r.2.2.1, r.2.2.2)
          else if ¬ node.offline ∧ online = false then
            let nr := node.retries + 1
            if nr > maxRetries then
              let r := checkNodes retrying nodeLookup ping rest
              ({ node with offline := true, retries := 0 } :: r.1,
                (node.ip, true) :: r.2.1, r.2.2.1, r.2.2.2)
            else
              let r := checkNodes retrying nodeLookup ping rest
              ({ node with retries := nr } :: r.1, r.2.1, true, r.2.2.2)
          else
            let r := checkNodes retrying nodeLookup ping rest
            (node :: r.1, r.2.1, r.2.2.1, r.2.2.2)

/-- One `check` pass over a single monitored node: the step input is the
Node object served by the lister and the ping outcome. -/
def stepCheckSingle (node : MasterEgressNode) (input : NodeObj × Bool) :
    MasterEgressNode × List (String × Bool) :=
  let r := checkNodes false (fun _ => some input.1) (fun _ => input.2) [node]
  (r.1.headD node, r.2.1)

/-- All `SetNodeOffline` calls produced by successive `check` passes over a
single monitored node. -/
def runChecks : MasterEgressNode → List (NodeObj × Bool) → List (String × Bool)
  | _, [] => []
  | node, input :: rest =>
    let r := stepCheckSingle node input
    r.2 ++ runChecks r.1 rest

/-- Index of the pass in which the node is first declared offline. -/
def firstOfflineIndex (node : MasterEgressNode) :
    List (NodeObj × Bool) → Option ℕ
  | [] => none
  | input :: rest =>
    let r := stepCheckSingle node input
    if (node.ip, true) ∈ r.2 then some 0
    else (firstOfflineIndex r.1 rest).map (· + 1)

/-- Index of the n-th `false` entry of a ping-outcome list. -/
def nthFailureIndex : ℕ → List Bool → Option ℕ
  | _, [] => none
  | n, b :: rest =>
    if b then (nthFailureIndex n rest).map (· + 1)
    else if n ≤ 1 then some 0
    else (nthFailureIndex (n - 1) rest).map (· + 1)

/-- Whether a ping-outcome list contains three consecutive failures. -/
def hasThreeConsecutiveFailures : List Bool → Bool
  | false :: false :: false :: _ => true
  | _ :: rest => hasThreeConsecutiveFailures rest
  | [] => false

/-- C6 counterexample: with the Ready condition `True` throughout and ping
outcomes `false, true, false, true, false` (never three consecutive
failures), the master still declares the node offline at the fifth pass,
because a successful probe does not reset the retry counter.  This refutes
the only-if direction of the claim. -/
theorem c6_liveness_counterexample :
    runChecks ⟨"10.0.0.3", "nodeA", false, 0⟩
      ([false, true, false, true, false].map
        fun b => (⟨[("Ready", "True")]⟩, b)) = [("10.0.0.3", true)] ∧
    hasThreeConsecutiveFailures [false, true, false, true, false] = false ∧
    nodeIsReady ⟨[("Ready", "True")]⟩ = true := by
  decide

lemma firstOfflineIndex_ready_pings (ip name : String) :
    ∀ (pings : List Bool) (r : ℕ), r ≤ 2 →
      firstOfflineIndex ⟨ip, name, false, r⟩
        (pings.map fun b => (⟨[("Ready", "True")]⟩, b)) =
      nthFailureIndex (3 - r) pings := by
  intro pings
  induction pings with
  | nil => intro r _; rfl
  | cons b rest ih =>
    intro r hr
    rcases b with _ | _
    · by_cases h2 : r = 2
      · subst h2
        rw [List.map_cons, firstOfflineIndex]
        simp [stepCheckSingle, checkNodes, nodeIsReady, maxRetries,
          nthFailureIndex]
      · have hr1 : r + 1 ≤ 2 := by omega
        rw [List.map_cons, firstOfflineIndex]
        have hstep : stepCheckSingle ⟨ip, name, false, r⟩
            (⟨[("Ready", "True")]⟩, false) =
            (⟨ip, name, false, r + 1⟩, []) := by
          simp [stepCheckSingle, checkNodes, nodeIsReady, maxRetries,
            show ¬ (r + 1 > 2) by omega]
        rw [hstep]
        simp only [List.not_mem_nil, if_neg]
        rw [ih (r + 1) hr1]
        rw [nthFailureIndex]
        simp only [Bool.false_eq_true, if_false]
        rw [if_neg (by omega : ¬ 3 - r ≤ 1), Nat.sub_sub]
    · rw [List.map_cons, firstOfflineIndex]
      have hstep : stepCheckSingle ⟨ip, name, false, r⟩
          (⟨[("Ready", "True")]⟩, true) = (⟨ip, name, false, r⟩, []) := by
        simp [stepCheckSingle, checkNodes, nodeIsReady]
      rw [hstep]
      simp only [List.not_mem_nil, if_neg]
      rw [ih r hr]
      rfl

/-- C6 (amended): a monitored node is declared offline
(`SetNodeOffline(ip, true)`) when its Ready condition is `False` or
`Unknown` at a check, or when the count of failed `Ping` probes since the
node was last online-with-zero-retries reaches `maxRetries + 1 = 3`;
the failures need not be consecutive, since a successful probe leaves the
retry counter unchanged.  Moreover, because of the shadowed `retry`
variable in `poll`, every `check` pass runs with `retrying == false`. -/
theorem c6_liveness_check_amended :
    (∀ (node : MasterEgressNode) (obj : NodeObj) (p : String → Bool),
      nodeIsReady obj = false →
      checkNodes false (fun _ => some obj) p [node] =
        ([{ node with offline := true }], [(node.ip, true)], false, false)) ∧
    (∀ (ip name : String) (pings : List Bool) (r : ℕ), r ≤ 2 →
      firstOfflineIndex ⟨ip, name, false, r⟩
        (pings.map fun b => (⟨[("Ready", "True")]⟩, b)) =
      nthFailureIndex (3 - r) pings) := by
  constructor
  · intro node obj p hobj
    simp [checkNodes, hobj]
  · intro ip name pings r hr
    exact firstOfflineIndex_ready_pings ip name pings r hr

/-- Witness for the amended C6 theorem: a not-Ready node is declared
offline immediately, and with fresh retry state the ping trace
`false, true, false, true, false` leads to the offline declaration at
index 4, the position of the third failure. -/
theorem c6_liveness_check_amended_witness :
    checkNodes false (fun _ => some ⟨[("Ready", "False")]⟩) (fun _ => true)
      [⟨"1.2.3.4", "n", false, 0⟩] =
      ([⟨"1.2.3.4", "n", true, 0⟩], [("1.2.3.4", true)], false, false) ∧
    firstOfflineIndex ⟨"10.0.0.3", "nodeA", false, 0⟩
      ([false, true, false, true, false].map
        fun b => (⟨[("Ready", "True")]⟩, b)) =
      nthFailureIndex 3 [false, true, false, true, false] :=
  ⟨c6_liveness_check_amended.1 ⟨"1.2.3.4", "n", false, 0⟩
      ⟨[("Ready", "False")]⟩ (fun _ => true) (by decide),
    by
      have h := c6_liveness_check_amended.2 "10.0.0.3" "nodeA"
        [false, true, false, true, false] 0 (by decide)
      simpa using h⟩

/-! ## Node egress-IP watcher (package node)

`LinkEnv` models the local egress link as seen through `GetLinkDetails`,
`netlink.ParseAddr` and `netlink.AddrList`: its name, the mask length of
the local network, a membership test for the local network, and the
addresses currently on the link with their labels.  Dataplane mutations
are recorded as a list of `NodeAction` values in program order; the
`arping` invocations run in a background goroutine but are still recorded
as performed.  All netlink and subprocess calls are modelled on their
success path (`EEXIST` and `EADDRNOTAVAIL` are tolerated by the source). -/

/-- Dataplane effects of the node watcher. -/
inductive NodeAction where
  | addrAdd (egressIP label : String)
  | addrDel (egressIP : String)
  | arpingAnnounce (egressIP : String)
  | arpingUpdate (egressIP : String)
  | addIptablesRules (egressIP mark : String)
  | syncIptablesRules
deriving DecidableEq

/-- Local egress link environment. -/
structure LinkEnv where
  linkName : String
  maskLen : ℕ
  netContains : String → Bool
  addrs : List (String × String)

/-- Embedding of `egressIPLabel`: the label is the link name plus `:eip`
and must be at most 15 bytes. -/
def egressIPLabel (linkName : String) : Except String String :=
  let label := linkName ++ ":eip"
  if label.utf8ByteSize > 15 then
    .error ("link name \"" ++ linkName ++ "\" is too long")
  else .ok label

/-- Embedding of `egressIPWatcher.assignEgressIP` (production mode,
`testModeChan == nil`).  The source discards the `egressIPLabel` error
(`addr.Label, _ = egressIPLabel(localEgressLink)`), so on a too-long link
name the address is added with an empty label. -/
def assignEgressIP (env : LinkEnv) (localIP egressIP mark : String) :
    Except String (List NodeAction) :=
  if egressIP = localIP then
    .error ("desired egress IP \"" ++ egressIP ++ "\" is the node IP")
  else if env.netContains egressIP = false then
    .error ("egress IP \"" ++ egressIP ++ "\" is not in local network of interface "
      ++ env.linkName)
  else
    let label := match egressIPLabel env.linkName with
      | .ok l => l
      | .error _ => ""
    .ok [.addrAdd egressIP label, .arpingAnnounce egressIP,
      .arpingUpdate egressIP, .addIptablesRules egressIP mark]

/-- Embedding of `egressIPWatcher.Synced`: stale-address cleanup.  When the
link name is too long, the watcher logs the label error and returns before
touching any address or syncing iptables rules. -/
def syncedCleanup (env : LinkEnv) (iptablesMark : List (String × String)) :
    List NodeAction :=
  match egressIPLabel env.linkName with
  | .error _ => []
  | .ok label =>
    ((env.addrs.filter fun a =>
        a.2 == label && (iptablesMark.lookup a.1).getD "" == "").map
      fun a => NodeAction.addrDel a.1) ++ [NodeAction.syncIptablesRules]

/-- Monitored-node set and liveness-poller stop channel of the node
watcher; `stopActive` models `stop != nil`. -/
structure NWatch where
  monitorNodes : List (String × List String)
  stopActive : Bool
deriving DecidableEq

/-- `sets.String.Insert`. -/
def setInsert (s : List String) (x : String) : List String :=
  if x ∈ s then s else x :: s

/-- `sets.String.Delete`. -/
def setDelete (s : List String) (x : String) : List String :=
  s.filter fun y => y != x

/-- Embedding of `egressIPWatcher.addEgressIP` (remote claim): insert the
egress IP into the monitored set of the node, and start the poller when
the monitored map becomes non-empty. -/
def addEgressIP (w : NWatch) (nodeIP egressIP : String) : NWatch :=
  match w.monitorNodes.lookup nodeIP with
  | some ips =>
    { w with monitorNodes := w.monitorNodes.map fun p =>
        if p.1 = nodeIP then (p.1, setInsert ips egressIP) else p }
  | none =>
    let m := (nodeIP, [egressIP]) :: w.monitorNodes
    if m.length = 1 then { monitorNodes := m, stopActive := true }
    else { monitorNodes := m, stopActive := w.stopActive }

/-- Embedding of `egressIPWatcher.removeEgressIP` (remote release): delete
the egress IP from the monitored set; drop the node when its set becomes
empty and close the stop channel when the map becomes empty. -/
def removeEgressIP (w : NWatch) (nodeIP egressIP : String) : NWatch :=
  match w.monitorNodes.lookup nodeIP with
  | none => w
  | some ips =>
    let newIps := setDelete ips egressIP
    if newIps.length = 0 then
      let m := w.monitorNodes.filter fun p => p.1 != nodeIP
      if m.length = 0 ∧ w.stopActive then
        { monitorNodes := m, stopActive := false }
      else { monitorNodes := m, stopActive := w.stopActive }
    else
      { w with monitorNodes := w.monitorNodes.map fun p =>
          if p.1 = nodeIP then (p.1, newIps) else p }

/-- Remote-claim and remote-release operations driven by the tracker. -/
inductive MonitorOp where
  | add (nodeIP egressIP : String)
  | remove (nodeIP egressIP : String)

/-- Apply a sequence of remote-claim and remote-release operations. -/
def applyMonitorOps (w : NWatch) : List MonitorOp → NWatch
  | [] => w
  | .add nodeIP egressIP :: ops =>
    applyMonitorOps (addEgressIP w nodeIP egressIP) ops
  | .remove nodeIP egressIP :: ops =>
    applyMonitorOps (removeEgressIP w nodeIP egressIP) ops

/-- Poller-liveness invariant: the stop channel is non-nil exactly when
the monitored-node map is non-empty. -/
def pollerInv (w : NWatch) : Prop :=
  w.stopActive = true ↔ w.monitorNodes ≠ []

lemma pollerInv_addEgressIP {w : NWatch} (n e : String) (h : pollerInv w) :
    pollerInv (addEgressIP w n e) := by
  unfold pollerInv addEgressIP
  rcases hl : w.monitorNodes.lookup n with _ | ips
  · rcases hm : w.monitorNodes with _ | ⟨p, rest⟩
    · simp
    · have hne : w.monitorNodes ≠ [] := by rw [hm]; simp
      have hstop := h.mpr hne
      simp [hm, hstop]
  · have hne : w.monitorNodes ≠ [] := by
      intro hnil
      rw [hnil] at hl
      exact Option.noConfusion hl
    have hstop := h.mpr hne
    simp [hstop, Ne, List.map_eq_nil_iff]
    intro hnil
    exact hne hnil

lemma pollerInv_removeEgressIP {w : NWatch} (n e : String) (h : pollerInv w) :
    pollerInv (removeEgressIP w n e) := by
  unfold pollerInv removeEgressIP
  rcases hl : w.monitorNodes.lookup n with _ | ips
  · exact h
  · have hne : w.monitorNodes ≠ [] := by
      intro hnil
      rw [hnil] at hl
      exact Option.noConfusion hl
    have hstop := h.mpr hne
    dsimp only
    by_cases hlen : (setDelete ips e).length = 0
    · rw [if_pos hlen]
      by_cases hm : (w.monitorNodes.filter fun p => p.1 != n).length = 0 ∧
          w.stopActive = true
      · rw [if_pos hm]
        have hflt : (w.monitorNodes.filter fun p => p.1 != n) = [] :=
          List.length_eq_zero.mp hm.1
        simp [hflt]
      · rw [if_neg hm]
        have hml : (w.monitorNodes.filter fun p => p.1 != n).length ≠ 0 := by
          intro h0
          exact hm ⟨h0, hstop⟩
        dsimp only
        constructor
        · intro _ hnil
          rw [hnil] at hml
          exact hml rfl
        · intro _
          exact hstop
    · rw [if_neg hlen]
      dsimp only
      simp [hstop, Ne, List.map_eq_nil_iff]
      intro hnil
      exact hne hnil

lemma pollerInv_applyMonitorOps :
    ∀ (ops : List MonitorOp) (w : NWatch), pollerInv w →
      pollerInv (applyMonitorOps w ops) := by
  intro ops
  induction ops with
  | nil => intro w h; exact h
  | cons op ops ih =>
    intro w h
    rcases op with ⟨n, e⟩ | ⟨n, e⟩
    · exact ih _ (pollerInv_addEgressIP n e h)
    · exact ih _ (pollerInv_removeEgressIP n e h)

/-- C9: starting from an empty monitored set with no poller, after any
sequence of remote-claim (`addEgressIP`) and remote-release
(`removeEgressIP`) operations, the stop channel is non-nil exactly when
the monitored-node set is non-empty: the poller is started when the set
becomes non-empty and the channel is closed exactly when the set becomes
empty; no operation other than emptiness closes it. -/
theorem c9_poller_stop_iff_monitored :
    ∀ ops : List MonitorOp,
      (applyMonitorOps ⟨[], false⟩ ops).stopActive = true ↔
        (applyMonitorOps ⟨[], false⟩ ops).monitorNodes ≠ [] := by
  intro ops
  exact pollerInv_applyMonitorOps ops ⟨[], false⟩ (by simp [pollerInv])

/-- C8 counterexample: with the 12-character link name `verylongname`
(label 16 bytes), `egressIPLabel` fails, yet `assignEgressIP` still
performs the address assignment (with an empty label), both gratuitous ARP
probes and the iptables mark rule — refuting the claim that no local claim
operation is performed. -/
theorem c8_long_link_name_counterexample :
    egressIPLabel "verylongname" =
      .error "link name \"verylongname\" is too long" ∧
    assignEgressIP ⟨"verylongname", 24, fun _ => true, []⟩
        "10.0.0.2" "192.168.1.100" "0x0000002a" =
      .ok [.addrAdd "192.168.1.100" "", .arpingAnnounce "192.168.1.100",
        .arpingUpdate "192.168.1.100",
        .addIptablesRules "192.168.1.100" "0x0000002a"] := by
  constructor
  · rfl
  · rfl

/-- C8 (amended): when the link name plus `:eip` exceeds 15 bytes,
`egressIPLabel` fails; `Synced` logs the error and performs no cleanup and
no rule sync (disabling stale-address handling); but `assignEgressIP`
ignores the label error and still assigns the address with an empty label,
fires both ARP probes and installs the iptables mark rule. -/
theorem c8_long_link_name_amended :
    ∀ linkName : String, (linkName ++ ":eip").utf8ByteSize > 15 →
      egressIPLabel linkName =
        .error ("link name \"" ++ linkName ++ "\" is too long") ∧
      (∀ (env : LinkEnv) (marks : List (String × String)),
        env.linkName = linkName → syncedCleanup env marks = []) ∧
      (∀ (env : LinkEnv) (localIP egressIP mark : String),
        env.linkName = linkName → egressIP ≠ localIP →
        env.netContains egressIP = true →
        assignEgressIP env localIP egressIP mark =
          .ok [.addrAdd egressIP "", .arpingAnnounce egressIP,
            .arpingUpdate egressIP, .addIptablesRules egressIP mark]) := by
  intro linkName hlong
  have hlabel : egressIPLabel linkName =
      .error ("link name \"" ++ linkName ++ "\" is too long") := by
    unfold egressIPLabel
    rw [if_pos hlong]
  refine ⟨hlabel, ?_, ?_⟩
  · intro env marks henv
    unfold syncedCleanup
    rw [henv, hlabel]
  · intro env localIP egressIP mark henv hne hcont
    unfold assignEgressIP
    rw [if_neg hne, henv, hlabel]
    simp [hcont]

/-- Witness for the amended C8 theorem at link name `verylongname`. -/
theorem c8_long_link_name_amended_witness :
    egressIPLabel "verylongname" =
      .error ("link name \"" ++ "verylongname" ++ "\" is too long") ∧
    syncedCleanup ⟨"verylongname", 24, fun _ => true,
        [("192.168.1.7", "verylongname:eip")]⟩ [] = [] ∧
    assignEgressIP ⟨"verylongname", 24, fun _ => true, []⟩
        "10.0.0.2" "192.168.1.100" "0x0000002a" =
      .ok [.addrAdd "192.168.1.100" "", .arpingAnnounce "192.168.1.100",
        .arpingUpdate "192.168.1.100",
        .addIptablesRules "192.168.1.100" "0x0000002a"] := by
  have h := c8_long_link_name_amended "verylongname" (by decide)
  exact ⟨h.1,
    h.2.1 ⟨"verylongname", 24, fun _ => true,
      [("192.168.1.7", "verylongname:eip")]⟩ [] rfl,
    h.2.2 ⟨"verylongname", 24, fun _ => true, []⟩ "10.0.0.2" "192.168.1.100"
      "0x0000002a" rfl (by decide) rfl⟩

/-! ## Node watcher claim bookkeeping (`ClaimEgressIP` / `ReleaseEgressIP` /
`SetNamespaceEgressViaEgressIPs`) -/

/-- Embedding of `common.EgressIPAssignment`. -/
structure EgressIPAssignment where
  NodeIP : String
  EgressIP : String
deriving DecidableEq

/-- Embedding of the node `egressIPMetaData` records handed to the OVS
programmer. -/
structure egressIPMetaData where
  nodeIP : String
  packetMark : String
deriving DecidableEq

/-- State of the node `egressIPWatcher` relevant to claim bookkeeping. -/
structure WatcherState where
  localIP : String
  masqueradeBit : ℕ
  iptablesMark : List (String × String)
  monitor : NWatch

/-- Embedding of `newEgressIPWatcher`: the masquerade bit position becomes
the single-bit mask `1 <<< b` (zero when absent). -/
def initWatcher (localIP : String) (masqueradeBitPos : Option ℕ) :
    WatcherState :=
  { localIP := localIP,
    masqueradeBit := match masqueradeBitPos with
      | some b => 1 <<< b
      | none => 0,
    iptablesMark := [], monitor := ⟨[], false⟩ }

/-- Embedding of `egressIPWatcher.ClaimEgressIP`: a local claim records the
packet mark in `iptablesMark` (and assigns the address); a remote claim
only adds the node to the monitored set. -/
def claimEgressIP (s : WatcherState) (vnid : ℕ) (egressIP nodeIP : String) :
    WatcherState :=
  if nodeIP = s.localIP then
    { s with iptablesMark :=
        mapSet s.iptablesMark egressIP (getMarkForVNID vnid s.masqueradeBit) }
  else
    { s with monitor := addEgressIP s.monitor nodeIP egressIP }

/-- Embedding of `egressIPWatcher.ReleaseEgressIP`. -/
def releaseEgressIP (s : WatcherState) (egressIP nodeIP : String) :
    WatcherState :=
  if nodeIP = s.localIP then
    { s with iptablesMark := s.iptablesMark.filter fun p => p.1 != egressIP }
  else
    { s with monitor := removeEgressIP s.monitor nodeIP egressIP }

/-- Embedding of `egressIPWatcher.SetNamespaceEgressViaEgressIPs`: the OVS
programmer receives, for each assignment, the node IP and the packet mark
looked up in `iptablesMark` (the Go zero value `""` when absent). -/
def setNamespaceEgressViaEgressIPs (s : WatcherState)
    (activeEgressIPs : List EgressIPAssignment) : List egressIPMetaData :=
  activeEgressIPs.map fun a =>
    { nodeIP := a.NodeIP,
      packetMark := (s.iptablesMark.lookup a.EgressIP).getD "" }

/-- Tracker callbacks driving the watcher. -/
inductive WatcherOp where
  | claim (vnid : ℕ) (egressIP nodeIP : String)
  | release (egressIP nodeIP : String)

/-- Apply one tracker callback. -/
def applyWatcherOp (s : WatcherState) : WatcherOp → WatcherState
  | .claim vnid egressIP nodeIP => claimEgressIP s vnid egressIP nodeIP
  | .release egressIP nodeIP => releaseEgressIP s egressIP nodeIP

/-- Apply a sequence of tracker callbacks. -/
def applyWatcherOps (s : WatcherState) : List WatcherOp → WatcherState
  | [] => s
  | op :: ops => applyWatcherOps (applyWatcherOp s op) ops

/-- Egress IPs that a callback sequence claims with the local node IP. -/
def localClaimKeys (localIP : String) : List WatcherOp → List String
  | [] => []
  | .claim _ egressIP nodeIP :: ops =>
    if nodeIP = localIP then egressIP :: localClaimKeys localIP ops
    else localClaimKeys localIP ops
  | .release _ _ :: ops => localClaimKeys localIP ops

lemma lookup_mapSet_ne {m : List (String × String)} {k v E : String}
    (h : E ≠ k) : (mapSet m k v).lookup E = m.lookup E := by
  unfold mapSet
  rw [List.lookup_cons]
  rw [show (E == k) = false from beq_eq_false_iff_ne.mpr h]
  induction m with
  | nil => rfl
  | cons p m ih =>
    rw [List.filter_cons]
    by_cases hp : p.1 = k
    · rw [if_neg (by simp [hp])]
      rw [ih]
      rcases p with ⟨a, b⟩
      rw [List.lookup_cons]
      simp only at hp
      rw [show (E == a) = false from beq_eq_false_iff_ne.mpr (by rw [hp]; exact h)]
    · rw [if_pos (by simp [hp])]
      rcases p with ⟨a, b⟩
      rw [List.lookup_cons, List.lookup_cons]
      rcases hEa : E == a with _ | _
      · exact ih
      · rfl

lemma lookup_filter_eq_none {m : List (String × String)} {E : String}
    (h : m.lookup E = none) (pred : String × String → Bool) :
    (m.filter pred).lookup E = none := by
  induction m with
  | nil => rfl
  | cons p m ih =>
    rcases p with ⟨a, b⟩
    rw [List.lookup_cons] at h
    rcases hEa : E == a with _ | _
    · rw [hEa] at h
      rw [List.filter_cons]
      by_cases hp : pred (a, b) = true
      · rw [if_pos hp, List.lookup_cons, hEa]
        exact ih h
      · rw [if_neg hp]
        exact ih h
    · rw [hEa] at h
      exact Option.noConfusion h

lemma applyWatcherOps_lookup_none {E : String} :
    ∀ (ops : List WatcherOp) (s : WatcherState),
      s.iptablesMark.lookup E = none →
      E ∉ localClaimKeys s.localIP ops →
      (applyWatcherOps s ops).iptablesMark.lookup E = none := by
  intro ops
  induction ops with
  | nil => intro s h _; exact h
  | cons op ops ih =>
    intro s h hmem
    rw [applyWatcherOps]
    rcases op with ⟨vnid, egressIP, nodeIP⟩ | ⟨egressIP, nodeIP⟩
    · by_cases hn : nodeIP = s.localIP
      · have hkeys : localClaimKeys s.localIP (.claim vnid egressIP nodeIP :: ops) =
            egressIP :: localClaimKeys s.localIP ops := by
          rw [localClaimKeys, if_pos hn]
        rw [hkeys] at hmem
        have hEe : E ≠ egressIP := fun he => hmem (by rw [he]; exact List.mem_cons_self _ _)
        apply ih
        · show (claimEgressIP s vnid egressIP nodeIP).iptablesMark.lookup E = none
          rw [claimEgressIP, if_pos hn]
          dsimp only
          rw [lookup_mapSet_ne hEe]
          exact h
        · show E ∉ localClaimKeys (claimEgressIP s vnid egressIP nodeIP).localIP ops
          rw [claimEgressIP, if_pos hn]
          exact fun hx => hmem (List.mem_cons_of_mem _ hx)
      · have hkeys : localClaimKeys s.localIP (.claim vnid egressIP nodeIP :: ops) =
            localClaimKeys s.localIP ops := by
          rw [localClaimKeys, if_neg hn]
        rw [hkeys] at hmem
        apply ih
        · show (claimEgressIP s vnid egressIP nodeIP).iptablesMark.lookup E = none
          rw [claimEgressIP, if_neg hn]
          exact h
        · show E ∉ localClaimKeys (claimEgressIP s vnid egressIP nodeIP).localIP ops
          rw [claimEgressIP, if_neg hn]
          exact hmem
    · have hkeys : localClaimKeys s.localIP (.release egressIP nodeIP :: ops) =
          localClaimKeys s.localIP ops := rfl
      rw [hkeys] at hmem
      by_cases hn : nodeIP = s.localIP
      · apply ih
        · show (releaseEgressIP s egressIP nodeIP).iptablesMark.lookup E = none
          rw [releaseEgressIP, if_pos hn]
          dsimp only
          exact lookup_filter_eq_none h _
        · show E ∉ localClaimKeys (releaseEgressIP s egressIP nodeIP).localIP ops
          rw [releaseEgressIP, if_pos hn]
          exact hmem
      · apply ih
        · show (releaseEgressIP s egressIP nodeIP).iptablesMark.lookup E = none
          rw [releaseEgressIP, if_neg hn]
          exact h
        · show E ∉ localClaimKeys (releaseEgressIP s egressIP nodeIP).localIP ops
          rw [releaseEgressIP, if_neg hn]
          exact hmem

/-- C10: if an egress IP is only ever claimed with node IPs different from
the local IP (remote claims), the `iptablesMark` table has no entry for it,
and any later `SetNamespaceEgressViaEgressIPs` callback whose assignment
list mentions that IP hands the OVS programmer an empty `packetMark` for
that entry. -/
theorem c10_remote_claim_gets_empty_packet_mark :
    ∀ (localIP : String) (mbPos : Option ℕ) (ops : List WatcherOp) (E : String),
      E ∉ localClaimKeys localIP ops →
      (applyWatcherOps (initWatcher localIP mbPos) ops).iptablesMark.lookup E
        = none ∧
      ∀ (assigns : List EgressIPAssignment) (a : EgressIPAssignment),
        a ∈ assigns → a.EgressIP = E →
        ({ nodeIP := a.NodeIP, packetMark := "" } : egressIPMetaData) ∈
          setNamespaceEgressViaEgressIPs
            (applyWatcherOps (initWatcher localIP mbPos) ops) assigns := by
  intro localIP mbPos ops E hmem
  have hnone : (applyWatcherOps (initWatcher localIP mbPos) ops).iptablesMark.lookup E
      = none :=
    applyWatcherOps_lookup_none ops (initWatcher localIP mbPos) rfl hmem
  refine ⟨hnone, ?_⟩
  intro assigns a ha haE
  unfold setNamespaceEgressViaEgressIPs
  apply List.mem_map.mpr
  refine ⟨a, ha, ?_⟩
  dsimp only
  rw [haE, hnone]
  rfl

/-- Witness for C10: the egress IP `172.17.0.100` is claimed remotely
(node `10.0.0.3`), released, claimed remotely again, while a different IP
is claimed locally; the assignment for `172.17.0.100` is handed to OVS
with an empty packet mark. -/
theorem c10_remote_claim_gets_empty_packet_mark_witness :
    (applyWatcherOps (initWatcher "10.0.0.2" (some 14))
      [.claim 42 "172.17.0.100" "10.0.0.3",
       .release "172.17.0.100" "10.0.0.3",
       .claim 7 "172.17.0.100" "10.0.0.3",
       .claim 9 "172.17.0.101" "10.0.0.2"]).iptablesMark.lookup "172.17.0.100"
      = none ∧
    ({ nodeIP := "10.0.0.3", packetMark := "" } : egressIPMetaData) ∈
      setNamespaceEgressViaEgressIPs
        (applyWatcherOps (initWatcher "10.0.0.2" (some 14))
          [.claim 42 "172.17.0.100" "10.0.0.3",
           .release "172.17.0.100" "10.0.0.3",
           .claim 7 "172.17.0.100" "10.0.0.3",
           .claim 9 "172.17.0.101" "10.0.0.2"])
        [⟨"10.0.0.3", "172.17.0.100"⟩] := by
  have h := c10_remote_claim_gets_empty_packet_mark "10.0.0.2" (some 14)
    [.claim 42 "172.17.0.100" "10.0.0.3",
     .release "172.17.0.100" "10.0.0.3",
     .claim 7 "172.17.0.100" "10.0.0.3",
     .claim 9 "172.17.0.101" "10.0.0.2"] "172.17.0.100" (by decide)
  exact ⟨h.1, h.2 [⟨"10.0.0.3", "172.17.0.100"⟩] ⟨"10.0.0.3", "172.17.0.100"⟩
    (List.mem_singleton.mpr rfl) rfl⟩

end SDN
